import Mathlib

/-!
A shallow embedding of the car driving simulator component: the input
aggregation over the key map, the per-frame simulation step, the reset
operation, and the telemetry heading conversion, together with proofs
of the specification claims about them.
-/

namespace CarSim

/-- The five named control flags of the simulator. -/
inductive ControlKey where
  | throttle
  | brake
  | left
  | right
  | reverse
  deriving DecidableEq

/-- The control flag record, one boolean per control name. -/
structure Controls where
  throttle : Bool
  brake : Bool
  left : Bool
  right : Bool
  reverse : Bool
  deriving DecidableEq

/-- Physical key identities occurring in the key map, plus one extra
key standing for every key code outside the map. -/
inductive KeyCode where
  | ArrowUp
  | KeyW
  | ArrowDown
  | KeyS
  | ArrowLeft
  | KeyA
  | ArrowRight
  | KeyD
  | KeyX
  | unmapped
  deriving DecidableEq

/-- The KEY_MAP table of the source: physical keys to control names. -/
def KEY_MAP : KeyCode → Option ControlKey
  | .ArrowUp => some .throttle
  | .KeyW => some .throttle
  | .ArrowDown => some .brake
  | .KeyS => some .reverse
  | .ArrowLeft => some .left
  | .KeyA => some .left
  | .ArrowRight => some .right
  | .KeyD => some .right
  | .KeyX => some .brake
  | .unmapped => none

/-- applyControl: overwrite one control flag with the given activity. -/
def applyControl (c : Controls) (k : ControlKey) (active : Bool) : Controls :=
  match k with
  | .throttle => { c with throttle := active }
  | .brake => { c with brake := active }
  | .left => { c with left := active }
  | .right => { c with right := active }
  | .reverse => { c with reverse := active }

/-- Read one control flag by name. -/
def getControl (c : Controls) : ControlKey → Bool
  | .throttle => c.throttle
  | .brake => c.brake
  | .left => c.left
  | .right => c.right
  | .reverse => c.reverse

/-- handleKey: a key event updates the mapped control flag, unmapped
keys are ignored. -/
def handleKey (c : Controls) (code : KeyCode) (isDown : Bool) : Controls :=
  match KEY_MAP code with
  | none => c
  | some k => applyControl c k isDown

/-- All control flags off (the initial controls). -/
def noControls : Controls :=
  { throttle := false, brake := false, left := false, right := false, reverse := false }

/-- Fold a sequence of key events through handleKey. -/
def applyEvents (c : Controls) (evs : List (KeyCode × Bool)) : Controls :=
  evs.foldl (fun acc e => handleKey acc e.1 e.2) c

/-- Which physical keys are currently held after a sequence of events:
a key is held when its most recent event is a key-down. -/
def heldAfter (evs : List (KeyCode × Bool)) (code : KeyCode) : Bool :=
  evs.foldl (fun h e => if e.1 = code then e.2 else h) false

noncomputable section

/-- Canvas width in pixels. -/
def CANVAS_WIDTH : ℝ := 720

/-- Canvas height in pixels. -/
def CANVAS_HEIGHT : ℝ := 480

/-- Maximum forward velocity. -/
def MAX_SPEED : ℝ := 22

/-- Maximum (most negative) reverse velocity. -/
def MAX_REVERSE_SPEED : ℝ := -6

/-- Throttle acceleration magnitude. -/
def ACCELERATION : ℝ := 8

/-- Brake deceleration magnitude. -/
def BRAKE_FORCE : ℝ := 14

/-- Rolling resistance magnitude. -/
def ROLLING_RESISTANCE : ℝ := 2

/-- Turn rate (radians per second at full steering and full speed). -/
def TURN_RATE : ℝ := Real.pi

/-- Steering smoothing rate. -/
def STEERING_SMOOTHING : ℝ := 4

/-- The car state threaded through the simulation loop. -/
structure CarState where
  x : ℝ
  y : ℝ
  velocity : ℝ
  heading : ℝ
  steering : ℝ

/-- The initial car state. -/
def INITIAL_STATE : CarState :=
  { x := CANVAS_WIDTH / 2
    y := CANVAS_HEIGHT / 2
    velocity := 0
    heading := -Real.pi / 2
    steering := 0 }

/-- The steering target: controls.left === controls.right gives 0,
otherwise minus one for left and plus one for right. -/
def intendedSteer (c : Controls) : ℝ :=
  if c.left = c.right then 0 else if c.left then -1 else 1

/-- One steering smoothing update. -/
def steerNext (st dt : ℝ) (c : Controls) : ℝ :=
  st + (intendedSteer c - st) * min (STEERING_SMOOTHING * dt) 1

/-- The ECMAScript logical-or on numbers restricted to the values the
source feeds it: the left operand when it is nonzero, otherwise the right. -/
def jsOr (a b : ℝ) : ℝ := if a = 0 then b else a

/-- Math.sign on finite numbers. -/
def jsSign (a : ℝ) : ℝ := if a > 0 then 1 else if a < 0 then -1 else 0

/-- The net acceleration accumulated in one frame: throttle, reverse,
brake (strong against positive velocity, mild otherwise) and rolling
resistance opposing the sign of the velocity, with sign one at rest. -/
def accelNext (c : Controls) (v : ℝ) : ℝ :=
  (if c.throttle then ACCELERATION else 0)
    + (if c.reverse then -(ACCELERATION * 0.6) else 0)
    + (if c.brake ∧ v > 0 then -BRAKE_FORCE else if c.brake then -ACCELERATION else 0)
    + -(ROLLING_RESISTANCE * jsSign (jsOr v 1))

/-- The two-sided velocity clamp of the source (two successive ifs). -/
def clampVelocity (v : ℝ) : ℝ :=
  let v1 := if v > MAX_SPEED then MAX_SPEED else v
  if v1 < MAX_REVERSE_SPEED then MAX_REVERSE_SPEED else v1

/-- The snap-to-rest branch: force velocity to zero when neither
throttle nor reverse is held and both the clamped velocity and the net
acceleration are small. -/
def snapVelocity (c : Controls) (accel v : ℝ) : ℝ :=
  if c.throttle = false ∧ c.reverse = false ∧ |v| < 0.2 ∧ |accel| < 0.5 then 0 else v

/-- Turning authority as a fraction of maximum speed, capped at one. -/
def turnIntensity (v : ℝ) : ℝ := min (|v| / MAX_SPEED) 1

/-- The horizontal boundary clamp (two successive ifs of the source). -/
def clampX (x : ℝ) : ℝ :=
  let x1 := if x < 24 then 24 else x
  if x1 > CANVAS_WIDTH - 24 then CANVAS_WIDTH - 24 else x1

/-- The vertical boundary clamp (two successive ifs of the source). -/
def clampY (y : ℝ) : ℝ :=
  let y1 := if y < 24 then 24 else y
  if y1 > CANVAS_HEIGHT - 24 then CANVAS_HEIGHT - 24 else y1

/-- One simulation step, in the order of the source: steering
smoothing, acceleration accumulation, velocity integration and clamp,
snap-to-rest, heading integration, position integration, boundary clamp. -/
def step (dt : ℝ) (c : Controls) (car : CarState) : CarState :=
  let steering := steerNext car.steering dt c
  let accel := accelNext c car.velocity
  let velocity := snapVelocity c accel (clampVelocity (car.velocity + accel * dt))
  let heading := car.heading + steering * TURN_RATE * dt * turnIntensity velocity
  let x := clampX (car.x + Real.cos heading * velocity * dt * 60)
  let y := clampY (car.y + Real.sin heading * velocity * dt * 60)
  { x := x, y := y, velocity := velocity, heading := heading, steering := steering }

/-- Iterated simulation steps with a fixed dt and fixed controls. -/
def stepN (dt : ℝ) (c : Controls) (car : CarState) : Nat → CarState
  | 0 => car
  | n + 1 => step dt c (stepN dt c car n)

/-- Truncation toward zero, as used by the ECMAScript remainder. -/
def rtz (x : ℝ) : ℤ := if 0 ≤ x then ⌊x⌋ else ⌈x⌉

/-- The ECMAScript remainder operator on finite numbers. -/
def jsMod (a b : ℝ) : ℝ := a - b * (rtz (a / b) : ℝ)

/-- The published heading in degrees. -/
def headingDeg (h : ℝ) : ℝ := jsMod (h * 180 / Real.pi + 360) 360

/-- The per-session simulation state outside the car itself: the car,
the last-frame timestamp bookkeeping and the control flags. -/
structure SimState where
  car : CarState
  lastFrame : Option ℝ
  controls : Controls

/-- resetSimulation: restore the initial car state and clear the
last-frame timestamp; the control flags are untouched. -/
def resetSimulation (s : SimState) : SimState :=
  { car := INITIAL_STATE, lastFrame := none, controls := s.controls }

/-- The elapsed seconds computed by a frame from its timestamp (in
milliseconds) and the stored last-frame timestamp. -/
def frameDt (lastFrame : Option ℝ) (timestamp : ℝ) : ℝ :=
  match lastFrame with
  | none => 0
  | some prev => (timestamp - prev) / 1000

/-- One animation frame: compute dt, step the car, store the timestamp. -/
def renderFrame (timestamp : ℝ) (s : SimState) : SimState :=
  { car := step (frameDt s.lastFrame timestamp) s.controls s.car
    lastFrame := some timestamp
    controls := s.controls }

/-- Run a sequence of animation frames. -/
def runFrames (s : SimState) : List ℝ → SimState
  | [] => s
  | t :: ts => runFrames (renderFrame t s) ts

/-- The net acceleration as the specification words it: independent
stacking contributions of throttle, reverse, strong or mild brake, and
a rolling-resistance term of magnitude two opposing the sign of the
velocity, the sign being treated as plus one at exactly zero. -/
def specNetAccel (c : Controls) (v : ℝ) : ℝ :=
  (if c.throttle then (8:ℝ) else 0)
    - (if c.reverse then (4.8:ℝ) else 0)
    - (if c.brake ∧ v > 0 then (14:ℝ) else 0)
    - (if c.brake ∧ ¬v > 0 then (8:ℝ) else 0)
    - 2 * (if v = 0 then 1 else if v > 0 then 1 else -1)

/-- The starting state of the snap-to-rest scenario: the initial pose
with velocity one tenth. -/
def car01 : CarState :=
  { x := CANVAS_WIDTH / 2
    y := CANVAS_HEIGHT / 2
    velocity := 0.1
    heading := -Real.pi / 2
    steering := 0 }

/-- A state at rest with full right steering deflection. -/
def carRestSteer : CarState :=
  { x := CANVAS_WIDTH / 2, y := CANVAS_HEIGHT / 2, velocity := 0, heading := 0, steering := 1 }

/-- A state whose x position lies outside the safe rectangle. -/
def carFarRight : CarState :=
  { x := 1000, y := 240, velocity := 0, heading := 0, steering := 0 }

end

/-- With neither throttle nor reverse held, the net acceleration always
has magnitude at least the rolling resistance, i.e. at least two. -/
theorem two_le_abs_accelNext (c : Controls) (v : ℝ)
    (ht : c.throttle = false) (hr : c.reverse = false) :
    2 ≤ |accelNext c v| := by
  unfold accelNext jsSign jsOr
  rw [ht, hr]
  simp only [Bool.false_eq_true, if_false]
  unfold ACCELERATION BRAKE_FORCE ROLLING_RESISTANCE
  rcases lt_trichotomy v 0 with hv | hv | hv <;>
    by_cases hb : c.brake = true <;>
      split_ifs <;> simp_all <;>
        first
          | linarith
          | (rw [le_abs]; norm_num)

/-- The snap-to-rest branch never fires when its acceleration argument
is the one the source computes: the branch is dead code. -/
theorem snapVelocity_accelNext (c : Controls) (v w : ℝ) :
    snapVelocity c (accelNext c v) w = w := by
  unfold snapVelocity
  split_ifs with h
  · exfalso
    obtain ⟨ht, hr, _, ha⟩ := h
    have h2 := two_le_abs_accelNext c v ht hr
    norm_num at ha
    linarith
  · rfl

/-- The velocity clamp lands in the speed range. -/
theorem clampVelocity_mem (v : ℝ) :
    MAX_REVERSE_SPEED ≤ clampVelocity v ∧ clampVelocity v ≤ MAX_SPEED := by
  simp only [clampVelocity, MAX_REVERSE_SPEED, MAX_SPEED]
  split_ifs <;> constructor <;> linarith

/-- The velocity clamp is the identity on the speed range. -/
theorem clampVelocity_eq_self (v : ℝ)
    (h1 : MAX_REVERSE_SPEED ≤ v) (h2 : v ≤ MAX_SPEED) : clampVelocity v = v := by
  simp only [clampVelocity, MAX_REVERSE_SPEED, MAX_SPEED] at *
  split_ifs <;> linarith

/-- The horizontal clamp lands in the safe range. -/
theorem clampX_mem (x : ℝ) : 24 ≤ clampX x ∧ clampX x ≤ 696 := by
  simp only [clampX, CANVAS_WIDTH]
  split_ifs <;> constructor <;> linarith

/-- The vertical clamp lands in the safe range. -/
theorem clampY_mem (y : ℝ) : 24 ≤ clampY y ∧ clampY y ≤ 456 := by
  simp only [clampY, CANVAS_HEIGHT]
  split_ifs <;> constructor <;> linarith

/-- The horizontal clamp is the identity on the safe range. -/
theorem clampX_eq_self (x : ℝ) (h1 : 24 ≤ x) (h2 : x ≤ 696) : clampX x = x := by
  simp only [clampX, CANVAS_WIDTH]
  split_ifs <;> linarith

/-- The vertical clamp is the identity on the safe range. -/
theorem clampY_eq_self (y : ℝ) (h1 : 24 ≤ y) (h2 : y ≤ 456) : clampY y = y := by
  simp only [clampY, CANVAS_HEIGHT]
  split_ifs <;> linarith

/-- The steering target is minus one, zero or plus one. -/
theorem intendedSteer_mem (c : Controls) :
    -1 ≤ intendedSteer c ∧ intendedSteer c ≤ 1 := by
  unfold intendedSteer
  split_ifs <;> norm_num

/-- The steering smoothing keeps steering inside the unit interval when
the elapsed time is nonnegative. -/
theorem steerNext_mem (st dt : ℝ) (c : Controls)
    (h1 : -1 ≤ st) (h2 : st ≤ 1) (hdt : 0 ≤ dt) :
    -1 ≤ steerNext st dt c ∧ steerNext st dt c ≤ 1 := by
  unfold steerNext
  obtain ⟨ht1, ht2⟩ := intendedSteer_mem c
  have hα0 : 0 ≤ min (STEERING_SMOOTHING * dt) 1 := by
    refine le_min ?_ (by norm_num)
    have : (0:ℝ) ≤ STEERING_SMOOTHING := by norm_num [STEERING_SMOOTHING]
    positivity
  have hα1 : min (STEERING_SMOOTHING * dt) 1 ≤ 1 := min_le_right _ _
  constructor
  · nlinarith [mul_nonneg (sub_nonneg.mpr hα1) (by linarith : (0:ℝ) ≤ st + 1),
      mul_nonneg hα0 (by linarith : (0:ℝ) ≤ intendedSteer c + 1)]
  · nlinarith [mul_nonneg (sub_nonneg.mpr hα1) (by linarith : (0:ℝ) ≤ 1 - st),
      mul_nonneg hα0 (by linarith : (0:ℝ) ≤ 1 - intendedSteer c)]

/-- Projection of step: the steering component. -/
theorem step_steering (dt : ℝ) (c : Controls) (car : CarState) :
    (step dt c car).steering = steerNext car.steering dt c := rfl

/-- Projection of step: the velocity component. -/
theorem step_velocity (dt : ℝ) (c : Controls) (car : CarState) :
    (step dt c car).velocity =
      snapVelocity c (accelNext c car.velocity)
        (clampVelocity (car.velocity + accelNext c car.velocity * dt)) := rfl

/-- Projection of step: the heading component. -/
theorem step_heading (dt : ℝ) (c : Controls) (car : CarState) :
    (step dt c car).heading =
      car.heading + steerNext car.steering dt c * TURN_RATE * dt *
        turnIntensity ((step dt c car).velocity) := rfl

/-- Projection of step: the x component. -/
theorem step_x (dt : ℝ) (c : Controls) (car : CarState) :
    (step dt c car).x =
      clampX (car.x + Real.cos ((step dt c car).heading) *
        (step dt c car).velocity * dt * 60) := rfl

/-- Projection of step: the y component. -/
theorem step_y (dt : ℝ) (c : Controls) (car : CarState) :
    (step dt c car).y =
      clampY (car.y + Real.sin ((step dt c car).heading) *
        (step dt c car).velocity * dt * 60) := rfl

/-- Unfolding lemma for zero iterated steps. -/
theorem stepN_zero (dt : ℝ) (c : Controls) (car : CarState) :
    stepN dt c car 0 = car := rfl

/-- Unfolding lemma for a successor of iterated steps. -/
theorem stepN_succ (dt : ℝ) (c : Controls) (car : CarState) (n : Nat) :
    stepN dt c car (n + 1) = step dt c (stepN dt c car n) := rfl

/-- Unfolding lemma for running a frame list. -/
theorem runFrames_cons (s : SimState) (t : ℝ) (ts : List ℝ) :
    runFrames s (t :: ts) = runFrames (renderFrame t s) ts := rfl

/-- Running frames never touches the control flags. -/
theorem runFrames_controls (ts : List ℝ) (s : SimState) :
    (runFrames s ts).controls = s.controls := by
  induction ts generalizing s with
  | nil => rfl
  | cons t ts ih => rw [runFrames_cons, ih]; rfl

/-- Claim C5: for every input state with velocity in the speed range
and steering in the unit interval, and every nonnegative dt and
controls, the stepped state has velocity in the speed range and
steering in the unit interval. -/
theorem step_bounds_invariant (dt : ℝ) (c : Controls) (car : CarState)
    (hv1 : MAX_REVERSE_SPEED ≤ car.velocity) (hv2 : car.velocity ≤ MAX_SPEED)
    (hs1 : -1 ≤ car.steering) (hs2 : car.steering ≤ 1) (hdt : 0 ≤ dt) :
    (MAX_REVERSE_SPEED ≤ (step dt c car).velocity ∧
        (step dt c car).velocity ≤ MAX_SPEED) ∧
      (-1 ≤ (step dt c car).steering ∧ (step dt c car).steering ≤ 1) := by
  constructor
  · rw [step_velocity, snapVelocity_accelNext]
    exact clampVelocity_mem _
  · rw [step_steering]
    exact steerNext_mem _ _ _ hs1 hs2 hdt

/-- Witness for claim C5 at the initial state with zero dt. -/
theorem step_bounds_invariant_witness :
    (MAX_REVERSE_SPEED ≤ (step 0 noControls INITIAL_STATE).velocity ∧
        (step 0 noControls INITIAL_STATE).velocity ≤ MAX_SPEED) ∧
      (-1 ≤ (step 0 noControls INITIAL_STATE).steering ∧
        (step 0 noControls INITIAL_STATE).steering ≤ 1) :=
  step_bounds_invariant 0 noControls INITIAL_STATE
    (by norm_num [INITIAL_STATE, MAX_REVERSE_SPEED])
    (by norm_num [INITIAL_STATE, MAX_SPEED])
    (by norm_num [INITIAL_STATE]) (by norm_num [INITIAL_STATE]) le_rfl

/-- Claim C6: for every input state, including out-of-range positions,
every nonnegative dt and every controls, the stepped position lies in
the safe rectangle. -/
theorem step_position_clamped (dt : ℝ) (c : Controls) (car : CarState)
    (hdt : 0 ≤ dt) :
    (24 ≤ (step dt c car).x ∧ (step dt c car).x ≤ 696) ∧
      (24 ≤ (step dt c car).y ∧ (step dt c car).y ≤ 456) := by
  constructor
  · rw [step_x]; exact clampX_mem _
  · rw [step_y]; exact clampY_mem _

/-- Witness for claim C6 at an out-of-range starting position. -/
theorem step_position_clamped_witness :
    (24 ≤ (step 0 noControls carFarRight).x ∧
        (step 0 noControls carFarRight).x ≤ 696) ∧
      (24 ≤ (step 0 noControls carFarRight).y ∧
        (step 0 noControls carFarRight).y ≤ 456) :=
  step_position_clamped 0 noControls carFarRight le_rfl

/-- Claim C8: the net acceleration of a step is exactly the stacked
sum of contributions described by the specification. -/
theorem accelNext_eq_specNetAccel (c : Controls) (v : ℝ) :
    accelNext c v = specNetAccel c v := by
  unfold accelNext specNetAccel jsSign jsOr
  unfold ACCELERATION BRAKE_FORCE ROLLING_RESISTANCE
  rcases lt_trichotomy v 0 with hv | hv | hv <;>
    split_ifs <;> simp_all <;> first | ring | linarith | norm_num

/-- Claim C9: resetting after any sequence of frames restores exactly
the documented initial car state, clears the last-frame timestamp, and
leaves the control flags unchanged. -/
theorem reset_restores_initial (s : SimState) (ts : List ℝ) :
    resetSimulation (runFrames s ts) =
        { car := INITIAL_STATE, lastFrame := none, controls := s.controls } ∧
      INITIAL_STATE.x = 360 ∧ INITIAL_STATE.y = 240 ∧
      INITIAL_STATE.velocity = 0 ∧ INITIAL_STATE.heading = -Real.pi / 2 ∧
      INITIAL_STATE.steering = 0 := by
  refine ⟨?_, by norm_num [INITIAL_STATE, CANVAS_WIDTH],
    by norm_num [INITIAL_STATE, CANVAS_HEIGHT], rfl, rfl, rfl⟩
  unfold resetSimulation
  rw [runFrames_controls]

/-- Claim C10: when dt is at least the reciprocal of the steering
smoothing rate, the smoothing factor saturates and the stepped steering
equals the steering target exactly. -/
theorem steering_saturates (dt : ℝ) (c : Controls) (car : CarState)
    (hs1 : -1 ≤ car.steering) (hs2 : car.steering ≤ 1)
    (hdt : 1 / STEERING_SMOOTHING ≤ dt) :
    (step dt c car).steering = intendedSteer c := by
  rw [step_steering]
  unfold steerNext
  have h4 : (1:ℝ) ≤ STEERING_SMOOTHING * dt := by
    rw [STEERING_SMOOTHING] at hdt ⊢
    linarith
  rw [min_eq_right h4]
  ring

/-- Witness for claim C10 at dt equal to a quarter second. -/
theorem steering_saturates_witness :
    (step (1 / 4) noControls INITIAL_STATE).steering = intendedSteer noControls :=
  steering_saturates (1 / 4) noControls INITIAL_STATE
    (by norm_num [INITIAL_STATE]) (by norm_num [INITIAL_STATE])
    (by norm_num [STEERING_SMOOTHING])

/-- When the integrated velocity is already in range, the stepped
velocity is exactly the integrated velocity. -/
theorem step_velocity_in_range (dt : ℝ) (c : Controls) (car : CarState)
    (h1 : MAX_REVERSE_SPEED ≤ car.velocity + accelNext c car.velocity * dt)
    (h2 : car.velocity + accelNext c car.velocity * dt ≤ MAX_SPEED) :
    (step dt c car).velocity = car.velocity + accelNext c car.velocity * dt := by
  rw [step_velocity, snapVelocity_accelNext, clampVelocity_eq_self _ h1 h2]

/-- Steering smoothing does nothing when dt is zero. -/
theorem steerNext_zero_dt (st : ℝ) (c : Controls) : steerNext st 0 c = st := by
  unfold steerNext
  rw [mul_zero, min_eq_left (by norm_num : (0:ℝ) ≤ 1)]
  ring

/-- Claim C7 counterexample: from a state whose x lies outside the
safe rectangle, a step with dt equal to zero does not return the input
state, because the boundary clamp still moves x. -/
theorem step_zero_dt_not_identity :
    step 0 noControls carFarRight ≠ carFarRight := by
  intro h
  have hx : (step 0 noControls carFarRight).x = carFarRight.x := by rw [h]
  rw [step_x] at hx
  have e : carFarRight.x + Real.cos ((step 0 noControls carFarRight).heading) *
      (step 0 noControls carFarRight).velocity * 0 * 60 = 1000 := by
    have : carFarRight.x = 1000 := rfl
    rw [this]; ring
  rw [e] at hx
  have hcl : clampX (1000:ℝ) = 696 := by
    norm_num [clampX, CANVAS_WIDTH]
  rw [hcl] at hx
  have : carFarRight.x = 1000 := rfl
  rw [this] at hx
  norm_num at hx

/-- Claim C7 amended: for every state whose velocity and position lie
inside their clamp ranges, a step with dt equal to zero returns the
input state unchanged. -/
theorem step_zero_dt_identity (c : Controls) (car : CarState)
    (hv1 : MAX_REVERSE_SPEED ≤ car.velocity) (hv2 : car.velocity ≤ MAX_SPEED)
    (hx1 : 24 ≤ car.x) (hx2 : car.x ≤ 696)
    (hy1 : 24 ≤ car.y) (hy2 : car.y ≤ 456) :
    step 0 c car = car := by
  have hs : (step 0 c car).steering = car.steering := by
    rw [step_steering, steerNext_zero_dt]
  have hv : (step 0 c car).velocity = car.velocity := by
    rw [step_velocity, snapVelocity_accelNext, mul_zero, add_zero,
      clampVelocity_eq_self _ hv1 hv2]
  have hh : (step 0 c car).heading = car.heading := by
    rw [step_heading]; ring
  have hx : (step 0 c car).x = car.x := by
    rw [step_x]
    have e : car.x + Real.cos ((step 0 c car).heading) *
        (step 0 c car).velocity * 0 * 60 = car.x := by ring
    rw [e, clampX_eq_self _ hx1 hx2]
  have hy : (step 0 c car).y = car.y := by
    rw [step_y]
    have e : car.y + Real.sin ((step 0 c car).heading) *
        (step 0 c car).velocity * 0 * 60 = car.y := by ring
    rw [e, clampY_eq_self _ hy1 hy2]
  calc step 0 c car
      = ⟨(step 0 c car).x, (step 0 c car).y, (step 0 c car).velocity,
          (step 0 c car).heading, (step 0 c car).steering⟩ := rfl
    _ = car := by rw [hx, hy, hv, hh, hs]

/-- Witness for the amended claim C7 at the initial state. -/
theorem step_zero_dt_identity_witness :
    step 0 noControls INITIAL_STATE = INITIAL_STATE :=
  step_zero_dt_identity noControls INITIAL_STATE
    (by norm_num [INITIAL_STATE, MAX_REVERSE_SPEED])
    (by norm_num [INITIAL_STATE, MAX_SPEED])
    (by norm_num [INITIAL_STATE, CANVAS_WIDTH])
    (by norm_num [INITIAL_STATE, CANVAS_WIDTH])
    (by norm_num [INITIAL_STATE, CANVAS_HEIGHT])
    (by norm_num [INITIAL_STATE, CANVAS_HEIGHT])

/-- With no control held, the net acceleration at nonnegative velocity
is exactly minus two (pure rolling resistance, sign one at rest). -/
theorem accelNext_noControls_nonneg (v : ℝ) (hv : 0 ≤ v) :
    accelNext noControls v = -2 := by
  rcases eq_or_lt_of_le hv with h | h
  · norm_num [accelNext, jsOr, jsSign, noControls, ACCELERATION,
      BRAKE_FORCE, ROLLING_RESISTANCE, ← h]
  · have hne : v ≠ 0 := ne_of_gt h
    norm_num [accelNext, jsOr, jsSign, noControls, ACCELERATION,
      BRAKE_FORCE, ROLLING_RESISTANCE, hne, h]

/-- With no control held, the net acceleration at negative velocity is
exactly plus two (rolling resistance pushing back toward rest). -/
theorem accelNext_noControls_neg (v : ℝ) (hv : v < 0) :
    accelNext noControls v = 2 := by
  have hne : v ≠ 0 := ne_of_lt hv
  have hng : ¬v > 0 := not_lt.mpr hv.le
  norm_num [accelNext, jsOr, jsSign, noControls, ACCELERATION,
    BRAKE_FORCE, ROLLING_RESISTANCE, hne, hv, hng]

/-- Claim C2 counterexample: from velocity zero and steering one, with
no control held and dt one sixtieth, the heading does change, because
the post-step velocity is made nonzero by rolling resistance. -/
theorem heading_changes_at_zero_speed :
    (step (1/60) noControls carRestSteer).heading ≠ carRestSteer.heading := by
  have hv0 : carRestSteer.velocity = 0 := rfl
  have hvel : (step (1/60) noControls carRestSteer).velocity = -(1/30) := by
    rw [step_velocity, snapVelocity_accelNext, hv0,
      accelNext_noControls_nonneg 0 le_rfl]
    norm_num [clampVelocity, MAX_SPEED, MAX_REVERSE_SPEED]
  have hsteer : steerNext carRestSteer.steering (1/60) noControls = 14/15 := by
    have hst : carRestSteer.steering = 1 := rfl
    norm_num [steerNext, intendedSteer, noControls, hst, STEERING_SMOOTHING, min_def]
  have hti : turnIntensity (-(1/30)) = 1/660 := by
    unfold turnIntensity MAX_SPEED
    rw [abs_neg, abs_of_pos (by norm_num : (0:ℝ) < 1/30),
      min_eq_left (by norm_num)]
    norm_num
  rw [step_heading, hvel, hsteer, hti]
  have hh0 : carRestSteer.heading = 0 := rfl
  rw [hh0, TURN_RATE]
  intro h
  have hpos : (0:ℝ) < 14/15 * Real.pi * (1/60) * (1/660) := by positivity
  linarith

/-- Claim C2 amended: the heading is unchanged by a step whenever the
post-step velocity is zero, since the turn intensity is computed from
that velocity; dt equal to zero is a particular case. -/
theorem heading_unchanged_of_rest (dt : ℝ) (c : Controls) (car : CarState)
    (h : (step dt c car).velocity = 0) :
    (step dt c car).heading = car.heading := by
  rw [step_heading, h]
  have hti : turnIntensity 0 = 0 := by
    norm_num [turnIntensity, MAX_SPEED, min_def]
  rw [hti]
  ring

/-- Witness for the amended claim C2 with dt zero at the initial state. -/
theorem heading_unchanged_of_rest_witness :
    (step 0 noControls INITIAL_STATE).velocity = 0 ∧
      (step 0 noControls INITIAL_STATE).heading = INITIAL_STATE.heading := by
  have h : (step 0 noControls INITIAL_STATE).velocity = 0 := by
    rw [step_velocity, snapVelocity_accelNext]
    norm_num [INITIAL_STATE, clampVelocity, MAX_SPEED, MAX_REVERSE_SPEED]
  exact ⟨h, heading_unchanged_of_rest 0 noControls INITIAL_STATE h⟩

/-- One small-velocity step with no controls integrates exactly, with
no clamping and no snap. -/
theorem vstep_small (car : CarState)
    (h1 : -1 ≤ car.velocity) (h2 : car.velocity ≤ 1) :
    (step (1/60) noControls car).velocity =
      car.velocity + accelNext noControls car.velocity * (1/60) := by
  apply step_velocity_in_range
  · rcases le_or_lt 0 car.velocity with h | h
    · rw [accelNext_noControls_nonneg _ h, MAX_REVERSE_SPEED]; linarith
    · rw [accelNext_noControls_neg _ h, MAX_REVERSE_SPEED]; linarith
  · rcases le_or_lt 0 car.velocity with h | h
    · rw [accelNext_noControls_nonneg _ h, MAX_SPEED]; linarith
    · rw [accelNext_noControls_neg _ h, MAX_SPEED]; linarith

/-- Claim C1: starting from velocity one tenth with no control held
and dt one sixtieth, the velocity reaches exactly zero after three
steps but leaves it again on the next step, oscillating between zero
and minus one thirtieth forever: the snap-to-rest branch is never
taken, so the car does not come to rest and stay there. -/
theorem snap_branch_never_rests (n : ℕ) :
    (stepN (1/60) noControls car01 (3 + 2*n)).velocity = 0 ∧
      (stepN (1/60) noControls car01 (4 + 2*n)).velocity = -(1/30) := by
  have h0 : car01.velocity = 1/10 := by norm_num [car01]
  have s1 : (stepN (1/60) noControls car01 1).velocity = 1/15 := by
    rw [stepN_succ, stepN_zero,
      vstep_small car01 (by rw [h0]; norm_num) (by rw [h0]; norm_num),
      accelNext_noControls_nonneg _ (by rw [h0]; norm_num), h0]
    norm_num
  have s2 : (stepN (1/60) noControls car01 2).velocity = 1/30 := by
    rw [stepN_succ,
      vstep_small _ (by rw [s1]; norm_num) (by rw [s1]; norm_num),
      accelNext_noControls_nonneg _ (by rw [s1]; norm_num), s1]
    norm_num
  have s3 : (stepN (1/60) noControls car01 3).velocity = 0 := by
    rw [stepN_succ,
      vstep_small _ (by rw [s2]; norm_num) (by rw [s2]; norm_num),
      accelNext_noControls_nonneg _ (by rw [s2]; norm_num), s2]
    norm_num
  have hz : ∀ car : CarState, car.velocity = 0 →
      (step (1/60) noControls car).velocity = -(1/30) := by
    intro car h
    rw [vstep_small car (by rw [h]; norm_num) (by rw [h]; norm_num),
      accelNext_noControls_nonneg _ (by rw [h]), h]
    norm_num
  have hm : ∀ car : CarState, car.velocity = -(1/30) →
      (step (1/60) noControls car).velocity = 0 := by
    intro car h
    rw [vstep_small car (by rw [h]; norm_num) (by rw [h]; norm_num),
      accelNext_noControls_neg _ (by rw [h]; norm_num), h]
    norm_num
  induction n with
  | zero =>
    refine ⟨by simpa using s3, ?_⟩
    have e : 4 + 2*0 = 3 + 1 := by norm_num
    rw [e, stepN_succ]
    exact hz _ s3
  | succ n ih =>
    obtain ⟨ih3, ih4⟩ := ih
    have e5 : 3 + 2*(n+1) = (4 + 2*n) + 1 := by ring
    have e6 : 4 + 2*(n+1) = ((4 + 2*n) + 1) + 1 := by ring
    constructor
    · rw [e5, stepN_succ]
      exact hm _ ih4
    · rw [e6, stepN_succ, stepN_succ]
      exact hz _ (hm _ ih4)

/-- Claim C4 counterexample: at heading minus three pi the published
heading in degrees is minus one hundred eighty, which does not lie in
the interval from zero up to three hundred sixty. -/
theorem headingDeg_negative_example :
    headingDeg (-3 * Real.pi) = -180 ∧
      headingDeg (-3 * Real.pi) ∉ Set.Ico (0:ℝ) 360 := by
  have ha : -3 * Real.pi * 180 / Real.pi + 360 = -180 := by
    field_simp
    ring
  have hrw : headingDeg (-3 * Real.pi) = jsMod (-180) 360 := by
    rw [headingDeg, ha]
  have hm : jsMod (-180 : ℝ) 360 = -180 := by
    unfold jsMod rtz
    rw [if_neg (by norm_num)]
    norm_num
  refine ⟨by rw [hrw, hm], ?_⟩
  rw [hrw, hm, Set.mem_Ico]
  norm_num

/-- Claim C4 amended: for every heading at least minus two pi, the
published heading in degrees lies in the interval from zero up to
three hundred sixty; below minus two pi the remainder can be negative. -/
theorem headingDeg_mem_of_ge (h : ℝ) (hh : -(2 * Real.pi) ≤ h) :
    headingDeg h ∈ Set.Ico (0:ℝ) 360 := by
  have hπ := Real.pi_pos
  have ha : 0 ≤ h * 180 / Real.pi + 360 := by
    have h1 : -(2 * Real.pi) * 180 / Real.pi ≤ h * 180 / Real.pi := by
      apply div_le_div_of_nonneg_right ?_ hπ.le
      nlinarith
    have h2 : -(2 * Real.pi) * 180 / Real.pi = -360 := by
      field_simp
      ring
    rw [h2] at h1
    linarith
  unfold headingDeg jsMod rtz
  rw [if_pos (div_nonneg ha (by norm_num))]
  have hf1 : (0:ℝ) ≤ Int.fract ((h * 180 / Real.pi + 360) / 360) :=
    Int.fract_nonneg _
  have hf2 : Int.fract ((h * 180 / Real.pi + 360) / 360) < 1 :=
    Int.fract_lt_one _
  have key : h * 180 / Real.pi + 360 -
      360 * ((⌊(h * 180 / Real.pi + 360) / 360⌋ : ℤ) : ℝ) =
      360 * Int.fract ((h * 180 / Real.pi + 360) / 360) := by
    rw [Int.fract]
    ring
  rw [Set.mem_Ico, key]
  constructor
  · exact mul_nonneg (by norm_num) hf1
  · linarith

/-- Witness for the amended claim C4 at heading zero. -/
theorem headingDeg_mem_witness :
    -(2 * Real.pi) ≤ 0 ∧ headingDeg 0 ∈ Set.Ico (0:ℝ) 360 :=
  have h : -(2 * Real.pi) ≤ 0 := neg_nonpos.mpr (by positivity)
  ⟨h, headingDeg_mem_of_ge 0 h⟩

/-- Claim C3: holding ArrowUp and KeyW, both mapped to throttle, then
releasing KeyW clears the throttle flag even though ArrowUp is still
held, so the flag is not the disjunction over held mapped keys. -/
theorem throttle_cleared_while_key_held :
    getControl
        (applyEvents noControls
          [(KeyCode.ArrowUp, true), (KeyCode.KeyW, true), (KeyCode.KeyW, false)])
        ControlKey.throttle = false ∧
      heldAfter [(KeyCode.ArrowUp, true), (KeyCode.KeyW, true), (KeyCode.KeyW, false)]
        KeyCode.ArrowUp = true ∧
      KEY_MAP KeyCode.ArrowUp = some ControlKey.throttle := by
  decide

end CarSim
